import Mathlib

/-!
# Shallow embedding of `src/taskmanager.py` (cli-task-manager)

This file embeds the core of the task manager — the `TaskModel` pydantic
entity with its validators, and the `TaskManager` store with its
`load_tasks` / `save_tasks` / `add_task` / `complete_task` /
`get_pending_dependencies` operations — as executable Lean definitions,
and proves the specification claims about them.

Modelling conventions:
- `datetime` values are modelled as `Nat` timestamps (seconds);
  `timedelta(days = i)` is `i * 86400`.  ISO-8601 serialization of a
  datetime is bijective, so the serialized form of a timestamp is
  modelled by the timestamp itself.
- The Python `dict` keyed by title is an association list
  `List (String × TaskModel)`; Python dict semantics are mirrored:
  assignment to a present key updates in place, to an absent key appends.
- Raising `ValidationError` / `ValueError` in construction is `Except`;
  the `KeyError` a missing dict index would raise in
  `get_pending_dependencies` is `Option.none`.
- The JSON file written by `save_tasks` is tracked in the manager state
  as the encoded record list (`file`), so "persists" / "no save" claims
  are statements about that component.
-/

/-- Model of `Priority(str, Enum)` with values `low`, `medium`, `high`. -/
inductive Priority where
  | low
  | medium
  | high
deriving DecidableEq, Repr

/-- The string value of a `Priority` member, as serialized to JSON. -/
def Priority.toString : Priority → String
  | .low => "low"
  | .medium => "medium"
  | .high => "high"

/-- Deserialize a priority string; `none` models a pydantic enum
validation failure on an unknown value. -/
def Priority.ofString? : String → Option Priority
  | "low" => some .low
  | "medium" => some .medium
  | "high" => some .high
  | _ => none

/-- The `TaskModel` pydantic entity: the fields of a fully constructed
(already validated) task. -/
structure TaskModel where
  title : String
  priority : Priority
  deadline : Option Nat
  dependencies : List String
  recurring : Bool
  recurrence_interval : Option Nat
  completed : Bool
  created_at : Nat
deriving DecidableEq, Repr

/-- Validated `TaskModel(...)` construction, at wall-clock time
`now`.  Mirrors, in pydantic field order:
`title` with `min_length=1, max_length=100`; the `deadline_must_be_future`
validator (`if v and v < datetime.now(): raise`, note the strict `<`);
the `recurrence_interval` field bound `ge=1, le=365`; and the
`validate_recurrence_interval` validator (mismatch of `recurring` and
interval presence).  On success, `completed := false` and
`created_at := now` (the `datetime.now` default factory). -/
def TaskModel.mk? (now : Nat) (title : String) (priority : Priority)
    (deadline : Option Nat) (dependencies : List String)
    (recurring : Bool) (recurrence_interval : Option Nat) :
    Except String TaskModel :=
  if title.length < 1 then
    .error "title too short"
  else if 100 < title.length then
    .error "title too long"
  else if deadline.any (fun d => decide (d < now)) then
    .error "Deadline must be in the future"
  else if recurrence_interval.any (fun i => decide (i < 1 ∨ 365 < i)) then
    .error "recurrence_interval out of range"
  else if recurring ∧ recurrence_interval = none then
    .error "Recurrence interval is required for recurring tasks"
  else if ¬ recurring ∧ recurrence_interval ≠ none then
    .error "Recurrence interval should only be set for recurring tasks"
  else
    .ok { title := title, priority := priority, deadline := deadline,
          dependencies := dependencies, recurring := recurring,
          recurrence_interval := recurrence_interval,
          completed := false, created_at := now }

/-- The in-memory store: the `self.tasks` dict, keyed by title. -/
abbrev Store := List (String × TaskModel)

/-- Dict lookup `self.tasks[t]` / membership `t in self.tasks`. -/
def Store.find? : Store → String → Option TaskModel
  | [], _ => none
  | (k, v) :: rest, t => if k = t then some v else Store.find? rest t

/-- Dict assignment `self.tasks[k] = v`: update in place when the key is
present, append when absent (Python dict insertion-order semantics). -/
def Store.set : Store → String → TaskModel → Store
  | [], k, v => [(k, v)]
  | (k', v') :: rest, k, v =>
      if k' = k then (k, v) :: rest else (k', v') :: Store.set rest k v

/-- The JSON record for one task, as written by `save_tasks` via
`task.json()`: the priority as its string value, the datetimes as their
(bijective) ISO-8601 serializations, here the timestamps themselves. -/
structure TaskRecord where
  title : String
  priority : String
  deadline : Option Nat
  dependencies : List String
  recurring : Bool
  recurrence_interval : Option Nat
  completed : Bool
  created_at : Nat
deriving DecidableEq, Repr

/-- Serialize one task to its JSON record (`task.json()`). -/
def encodeTask (t : TaskModel) : TaskRecord :=
  { title := t.title, priority := t.priority.toString,
    deadline := t.deadline, dependencies := t.dependencies,
    recurring := t.recurring, recurrence_interval := t.recurrence_interval,
    completed := t.completed, created_at := t.created_at }

/-- Serialize the whole store, as `save_tasks` does:
`{title: json.loads(task.json()) for title, task in self.tasks.items()}`. -/
def encodeStore (s : Store) : List (String × TaskRecord) :=
  s.map (fun p => (p.1, encodeTask p.2))

/-- Deserialization `TaskModel.parse_obj(task_data)` at load time `now`: re-runs the
field constraints and validators on the stored record (pydantic
validates on parse), and keeps the stored `completed` and `created_at`. -/
def decodeTask (now : Nat) (r : TaskRecord) : Except String TaskModel :=
  match Priority.ofString? r.priority with
  | none => .error "invalid priority"
  | some p =>
    if r.title.length < 1 then
      .error "title too short"
    else if 100 < r.title.length then
      .error "title too long"
    else if r.deadline.any (fun d => decide (d < now)) then
      .error "Deadline must be in the future"
    else if r.recurrence_interval.any (fun i => decide (i < 1 ∨ 365 < i)) then
      .error "recurrence_interval out of range"
    else if r.recurring ∧ r.recurrence_interval = none then
      .error "Recurrence interval is required for recurring tasks"
    else if ¬ r.recurring ∧ r.recurrence_interval ≠ none then
      .error "Recurrence interval should only be set for recurring tasks"
    else
      .ok { title := r.title, priority := p, deadline := r.deadline,
            dependencies := r.dependencies, recurring := r.recurring,
            recurrence_interval := r.recurrence_interval,
            completed := r.completed, created_at := r.created_at }

/-- Model of `load_tasks` over the record list of a file, at load time `now`:
`{title: TaskModel.parse_obj(task_data) for title, task_data in data.items()}`;
a `ValidationError` on any entry aborts the whole load. -/
def decodeStore (now : Nat) : List (String × TaskRecord) → Except String Store
  | [] => .ok []
  | (k, r) :: rest =>
    match decodeTask now r with
    | .error e => .error e
    | .ok t =>
      match decodeStore now rest with
      | .error e => .error e
      | .ok s => .ok ((k, t) :: s)

/-- The `TaskManager` state: the in-memory `tasks` dict and the current
content of the backing JSON file. -/
structure Manager where
  tasks : Store
  file : List (String × TaskRecord)
deriving DecidableEq

/-- Model of `save_tasks`: overwrite the file with the serialized store. -/
def save_tasks (m : Manager) : Manager :=
  { m with file := encodeStore m.tasks }

/-- Model of `add_task(task) -> bool`: refuse on a duplicate title or a
missing dependency (no mutation, no save); otherwise insert under the
title of the task, save, and return `True`. -/
def add_task (m : Manager) (task : TaskModel) : Bool × Manager :=
  if (m.tasks.find? task.title).isSome then
    (false, m)
  else if task.dependencies.any (fun dep => (m.tasks.find? dep).isNone) then
    (false, m)
  else
    (true, save_tasks { m with tasks := m.tasks.set task.title task })

/-- Model of `complete_task(title) -> bool` at wall-clock time `now`: `False` if
the title is absent; otherwise set `completed = True` on the stored
task, then — when `task.recurring and task.recurrence_interval` is
truthy (interval present and nonzero) — attempt recurrence synthesis:
construct the derived task (`ValueError` from validation is swallowed)
and insert it through `add_task`, ignoring its result; finally save and
return `True`. -/
def complete_task (now : Nat) (m : Manager) (title : String) :
    Bool × Manager :=
  match m.tasks.find? title with
  | none => (false, m)
  | some task =>
    let task1 : TaskModel := { task with completed := true }
    let m1 : Manager := { m with tasks := m.tasks.set title task1 }
    let m2 : Manager :=
      match task1.recurrence_interval with
      | none => m1
      | some i =>
        if task1.recurring ∧ i ≠ 0 then
          match TaskModel.mk? now (task1.title ++ " (Recurring)")
              task1.priority (task1.deadline.map (fun d => d + i * 86400))
              task1.dependencies true (some i) with
          | .error _ => m1
          | .ok new_task => (add_task m1 new_task).2
        else m1
    (true, save_tasks m2)

/-- Body of `get_pending_dependencies`: the list comprehension
`[dep for dep in task.dependencies if not self.tasks[dep].completed]`;
`none` models the `KeyError` raised when a dependency title is absent. -/
def pendingOf (s : Store) : List String → Option (List String)
  | [] => some []
  | dep :: rest =>
    match s.find? dep with
    | none => none
    | some t =>
      match pendingOf s rest with
      | none => none
      | some l => some (if t.completed then l else dep :: l)

/-- Model of `get_pending_dependencies(title) -> List[str]`: `[]` for an
absent title, otherwise the incomplete subsequence of the dependencies of
the task (`none` models the `KeyError` on a dangling dependency). -/
def get_pending_dependencies (m : Manager) (title : String) :
    Option (List String) :=
  match m.tasks.find? title with
  | none => some []
  | some task => pendingOf m.tasks task.dependencies

/-- Decision of success of a validated construction or deserialization. -/
def excOk {ε α : Type} : Except ε α → Bool
  | .ok _ => true
  | .error _ => false

/-- The §4.1 validity rules for a task value at wall-clock time `now`,
as re-checked when a stored record is parsed: title length in `[1,100]`,
a present deadline not strictly in the past, a present interval in
`[1,365]`, and `recurring` covariant with interval presence. -/
def TaskModel.valid (now : Nat) (t : TaskModel) : Bool :=
  decide (1 ≤ t.title.length) && decide (t.title.length ≤ 100) &&
  (match t.deadline with
   | some d => decide (now ≤ d)
   | none => true) &&
  (match t.recurrence_interval with
   | some i => decide (1 ≤ i) && decide (i ≤ 365)
   | none => true) &&
  (if t.recurring then t.recurrence_interval.isSome
   else t.recurrence_interval.isNone)

/-- One call into the store operation contract. -/
inductive Op where
  | add (task : TaskModel)
  | complete (now : Nat) (title : String)
  | pending (title : String)

/-- Apply one store operation to the manager state (queries leave it
unchanged). -/
def applyOp (m : Manager) : Op → Manager
  | .add t => (add_task m t).2
  | .complete now title => (complete_task now m title).2
  | .pending _ => m

/-- Run a sequence of store operations from a starting state. -/
def run (m : Manager) (ops : List Op) : Manager :=
  ops.foldl applyOp m

/-- The dependency-closure invariant: every dependency title listed by
any stored task refers to a task present in the store. -/
def DepClosed (s : Store) : Prop :=
  ∀ k t, s.find? k = some t → ∀ dep ∈ t.dependencies, (s.find? dep).isSome = true

/-- A concrete sample task: valid, no deadline, no dependencies, not
recurring. -/
def taskA : TaskModel :=
  { title := "a", priority := .medium, deadline := none, dependencies := [],
    recurring := false, recurrence_interval := none, completed := false,
    created_at := 0 }

/-- A concrete sample recurring task with a deadline. -/
def taskR : TaskModel :=
  { title := "r", priority := .high, deadline := some 100, dependencies := [],
    recurring := true, recurrence_interval := some 7, completed := false,
    created_at := 0 }

/-- A manager state with no tasks and an empty file. -/
def emptyManager : Manager := { tasks := [], file := [] }

/-- A manager state holding only the sample recurring task. -/
def managerR : Manager := { tasks := [("r", taskR)], file := [] }

/-- An 89-character title: itself within the 100-character limit, but
appending the 12-character recurrence suffix exceeds it. -/
def longTitle : String := String.mk (List.replicate 89 'x')

/-- A recurring task whose title has 89 characters. -/
def taskL : TaskModel :=
  { title := longTitle, priority := .low, deadline := some 100,
    dependencies := [], recurring := true, recurrence_interval := some 7,
    completed := false, created_at := 0 }

/-- A manager state holding only the long-titled recurring task. -/
def managerL : Manager := { tasks := [(longTitle, taskL)], file := [] }

/-- The §4.3 successor value that `complete_task` synthesizes for a
recurring `task` with interval `i` at time `now`: derived title with
the fixed suffix, deadline shifted by `i` days, priority, dependencies
and recurrence settings copied verbatim. -/
def derivedTask (now : Nat) (task : TaskModel) (i : Nat) : TaskModel :=
  { title := task.title ++ " (Recurring)", priority := task.priority,
    deadline := task.deadline.map (fun d => d + i * 86400),
    dependencies := task.dependencies, recurring := true,
    recurrence_interval := some i, completed := false, created_at := now }

/-- A concrete sample task that is already completed. -/
def taskC : TaskModel :=
  { title := "c", priority := .low, deadline := none, dependencies := [],
    recurring := false, recurrence_interval := none, completed := true,
    created_at := 0 }

/-- A concrete sample task depending on both sample tasks. -/
def taskB : TaskModel :=
  { title := "b", priority := .medium, deadline := none,
    dependencies := ["a", "c"], recurring := false,
    recurrence_interval := none, completed := false, created_at := 0 }

/-- A manager state with an incomplete task, a completed task, and a
task depending on both. -/
def managerB : Manager :=
  { tasks := [("a", taskA), ("c", taskC), ("b", taskB)], file := [] }

/-! ## Basic lemmas about the store and construction -/

theorem Store.find?_set (s : Store) (k : String) (v : TaskModel) (k' : String) :
    (s.set k v).find? k' = if k = k' then some v else s.find? k' := by
  induction s with
  | nil =>
    by_cases h : k = k' <;> simp [Store.set, Store.find?, h]
  | cons p rest ih =>
    obtain ⟨a, b⟩ := p
    by_cases hak : a = k
    · subst hak
      by_cases hk' : a = k'
      · subst hk'
        simp [Store.set, Store.find?]
      · simp [Store.set, Store.find?, hk']
    · by_cases hak' : a = k'
      · subst hak'
        have hk : ¬ k = a := fun h => hak h.symm
        simp [Store.set, Store.find?, hak, hk]
      · simp [Store.set, Store.find?, hak, hak', ih]

theorem Store.find?_set_isSome (s : Store) (k : String) (v : TaskModel)
    (k' : String) (h : (s.find? k').isSome = true) :
    ((s.set k v).find? k').isSome = true := by
  rw [Store.find?_set]
  split <;> simp_all

theorem title_append_suffix_ne (t : String) : t ++ " (Recurring)" ≠ t := by
  intro h
  have h2 : (t ++ " (Recurring)").length = t.length := congrArg String.length h
  have h3 : (" (Recurring)" : String).length = 12 := rfl
  rw [String.length_append, h3] at h2
  omega

theorem TaskModel.mk?_ok_shape (now : Nat) (title : String) (p : Priority)
    (deadline : Option Nat) (deps : List String) (recurring : Bool)
    (ri : Option Nat) (task : TaskModel)
    (h : TaskModel.mk? now title p deadline deps recurring ri = .ok task) :
    task = { title := title, priority := p, deadline := deadline,
             dependencies := deps, recurring := recurring,
             recurrence_interval := ri, completed := false,
             created_at := now } := by
  unfold TaskModel.mk? at h
  repeat' split at h
  all_goals first
  | (injection h with h2; exact h2.symm)
  | simp at h

theorem TaskModel.mk?_success (now : Nat) (title : String) (p : Priority)
    (deadline : Option Nat) (deps : List String) (recurring : Bool)
    (ri : Option Nat)
    (h1 : 1 ≤ title.length) (h2 : title.length ≤ 100)
    (h3 : ∀ d, deadline = some d → ¬ d < now)
    (h4 : ∀ i, ri = some i → 1 ≤ i ∧ i ≤ 365)
    (h5 : recurring = true → ri ≠ none)
    (h6 : recurring = false → ri = none) :
    TaskModel.mk? now title p deadline deps recurring ri =
      .ok { title := title, priority := p, deadline := deadline,
            dependencies := deps, recurring := recurring,
            recurrence_interval := ri, completed := false,
            created_at := now } := by
  have c1 : ¬ title.length < 1 := by omega
  have c2 : ¬ 100 < title.length := by omega
  have c3 : deadline.any (fun d => decide (d < now)) = false := by
    cases deadline with
    | none => rfl
    | some d => simpa using h3 d rfl
  have c4 : ri.any (fun i => decide (i < 1 ∨ 365 < i)) = false := by
    cases ri with
    | none => rfl
    | some i =>
      have := h4 i rfl
      simp only [Option.any_some, decide_eq_false_iff_not]
      omega
  have c5 : ¬ (recurring = true ∧ ri = none) := by
    rintro ⟨hr, hn⟩
    exact h5 hr hn
  have c6 : ¬ (¬ recurring = true ∧ ¬ ri = none) := by
    rintro ⟨hr, hn⟩
    exact hn (h6 (by cases recurring <;> simp_all))
  unfold TaskModel.mk?
  rw [if_neg c1, if_neg c2, if_neg (by rw [c3]; decide),
      if_neg (by rw [c4]; decide), if_neg c5, if_neg c6]

/-! ## Lemmas about `add_task` -/

theorem add_task_dup (m : Manager) (t : TaskModel)
    (h : (m.tasks.find? t.title).isSome = true) : add_task m t = (false, m) := by
  simp [add_task, h]

theorem add_task_success (m : Manager) (t : TaskModel)
    (h1 : m.tasks.find? t.title = none)
    (h2 : ∀ dep ∈ t.dependencies, (m.tasks.find? dep).isSome = true) :
    add_task m t =
      (true, { tasks := m.tasks.set t.title t,
               file := encodeStore (m.tasks.set t.title t) }) := by
  have ht : (m.tasks.find? t.title).isSome = false := by simp [h1]
  have hany : t.dependencies.any (fun dep => (m.tasks.find? dep).isNone) = false := by
    rw [List.any_eq_false]
    intro dep hdep hno
    have h2d := h2 dep hdep
    rw [Option.isNone_iff_eq_none] at hno
    rw [hno] at h2d
    simp at h2d
  simp [add_task, ht, hany, save_tasks]

theorem add_task_eq (m : Manager) (t : TaskModel) :
    add_task m t = (false, m) ∨
    (m.tasks.find? t.title = none ∧
     (∀ dep ∈ t.dependencies, (m.tasks.find? dep).isSome = true) ∧
     add_task m t =
       (true, { tasks := m.tasks.set t.title t,
                file := encodeStore (m.tasks.set t.title t) })) := by
  by_cases h1 : (m.tasks.find? t.title).isSome = true
  · exact Or.inl (add_task_dup m t h1)
  · by_cases h2 : t.dependencies.any (fun dep => (m.tasks.find? dep).isNone) = true
    · left
      simp [add_task, h1, h2]
    · right
      have hnone : m.tasks.find? t.title = none := by
        cases hf : m.tasks.find? t.title with
        | none => rfl
        | some v => rw [hf] at h1; simp at h1
      have hdeps : ∀ dep ∈ t.dependencies, (m.tasks.find? dep).isSome = true := by
        intro dep hdep
        rw [List.any_eq_true] at h2
        push_neg at h2
        have := h2 dep hdep
        cases hf : m.tasks.find? dep with
        | none => rw [hf] at this; simp at this
        | some v => simp
      exact ⟨hnone, hdeps, add_task_success m t hnone hdeps⟩

theorem add_task_find?_present (m : Manager) (t : TaskModel) (k : String)
    (h : (m.tasks.find? k).isSome = true) :
    (add_task m t).2.tasks.find? k = m.tasks.find? k := by
  rcases add_task_eq m t with he | ⟨hnone, _, he⟩
  · rw [he]
  · rw [he]
    have hne : ¬ t.title = k := by
      intro hc
      rw [hc] at hnone
      rw [hnone] at h
      simp at h
    simp [Store.find?_set, hne]

theorem depClosed_set (s : Store) (k : String) (v : TaskModel)
    (h : DepClosed s) (hv : ∀ dep ∈ v.dependencies, (s.find? dep).isSome = true) :
    DepClosed (s.set k v) := by
  intro k2 t2 ht2 dep hdep
  rw [Store.find?_set] at ht2
  by_cases hk : k = k2
  · rw [if_pos hk] at ht2
    injection ht2 with he
    subst he
    exact Store.find?_set_isSome _ _ _ _ (hv dep hdep)
  · rw [if_neg hk] at ht2
    exact Store.find?_set_isSome _ _ _ _ (h k2 t2 ht2 dep hdep)

theorem add_task_depClosed (m : Manager) (t : TaskModel)
    (h : DepClosed m.tasks) : DepClosed (add_task m t).2.tasks := by
  rcases add_task_eq m t with he | ⟨_, hdeps, he⟩
  · rw [he]
    exact h
  · rw [he]
    exact depClosed_set _ _ _ h hdeps

/-! ## Lemmas about `complete_task` -/

theorem complete_task_absent (now : Nat) (m : Manager) (title : String)
    (h : m.tasks.find? title = none) :
    complete_task now m title = (false, m) := by
  simp [complete_task, h]

theorem complete_task_found (now : Nat) (m : Manager) (title : String)
    (task : TaskModel) (h : m.tasks.find? title = some task) :
    ∃ m2 : Manager,
      complete_task now m title = (true, save_tasks m2) ∧
      m2.tasks.find? title = some { task with completed := true } ∧
      (∀ k, (m.tasks.find? k).isSome = true → ¬ k = title →
        m2.tasks.find? k = m.tasks.find? k) ∧
      (DepClosed m.tasks → DepClosed m2.tasks) := by
  have hA : ∀ mm : Manager, mm.tasks = m.tasks.set title { task with completed := true } →
      mm.tasks.find? title = some { task with completed := true } ∧
      (∀ k, (m.tasks.find? k).isSome = true → ¬ k = title →
        mm.tasks.find? k = m.tasks.find? k) ∧
      (DepClosed m.tasks → DepClosed mm.tasks) := by
    intro mm hmm
    refine ⟨?_, ?_, ?_⟩
    · simp [hmm, Store.find?_set]
    · intro k _ hkt
      have : ¬ title = k := fun hc => hkt hc.symm
      simp [hmm, Store.find?_set, this]
    · intro hdc
      rw [hmm]
      exact depClosed_set _ _ _ hdc (fun dep hdep => hdc title task h dep hdep)
  have hB : ∀ mm : Manager, mm.tasks = m.tasks.set title { task with completed := true } →
      ∀ nt : TaskModel,
      ((add_task mm nt).2.tasks.find? title = some { task with completed := true } ∧
       (∀ k, (m.tasks.find? k).isSome = true → ¬ k = title →
         (add_task mm nt).2.tasks.find? k = m.tasks.find? k) ∧
       (DepClosed m.tasks → DepClosed (add_task mm nt).2.tasks)) := by
    intro mm hmm nt
    obtain ⟨hA1, hA2, hA3⟩ := hA mm hmm
    refine ⟨?_, ?_, ?_⟩
    · rw [add_task_find?_present mm nt title (by simp [hA1])]
      exact hA1
    · intro k hk hkt
      rw [add_task_find?_present mm nt k ?_]
      · exact hA2 k hk hkt
      · rw [hA2 k hk hkt]
        exact hk
    · intro hdc
      exact add_task_depClosed mm nt (hA3 hdc)
  simp only [complete_task, h]
  repeat' split
  all_goals first
  | exact ⟨_, rfl, hA _ rfl⟩
  | exact ⟨_, rfl, hB _ rfl _⟩

theorem save_tasks_tasks (m : Manager) : (save_tasks m).tasks = m.tasks := rfl

theorem complete_task_depClosed (now : Nat) (m : Manager) (title : String)
    (h : DepClosed m.tasks) : DepClosed (complete_task now m title).2.tasks := by
  cases hf : m.tasks.find? title with
  | none =>
    rw [complete_task_absent now m title hf]
    exact h
  | some task =>
    obtain ⟨m2, he, _, _, hdc⟩ := complete_task_found now m title task hf
    rw [he]
    exact hdc h

theorem applyOp_depClosed (m : Manager) (op : Op) (h : DepClosed m.tasks) :
    DepClosed (applyOp m op).tasks := by
  cases op with
  | add t => exact add_task_depClosed m t h
  | complete now title => exact complete_task_depClosed now m title h
  | pending _ => exact h

theorem run_depClosed (m : Manager) (ops : List Op) (h : DepClosed m.tasks) :
    DepClosed (run m ops).tasks := by
  induction ops generalizing m with
  | nil => exact h
  | cons op ops ih => exact ih (applyOp m op) (applyOp_depClosed m op h)

/-! ## Lemmas about `get_pending_dependencies` -/

theorem pendingOf_eq (s : Store) (deps : List String)
    (h : ∀ dep ∈ deps, (s.find? dep).isSome = true) :
    pendingOf s deps = some (deps.filter (fun dep =>
      match s.find? dep with
      | some t => !t.completed
      | none => false)) := by
  induction deps with
  | nil => rfl
  | cons d rest ih =>
    have hd := h d (List.mem_cons_self d rest)
    obtain ⟨t, ht⟩ := Option.isSome_iff_exists.mp hd
    rw [pendingOf, ht, ih (fun dep hdep => h dep (List.mem_cons_of_mem d hdep))]
    rw [List.filter_cons]
    cases hc : t.completed <;> simp [ht, hc]

theorem get_pending_dependencies_isSome (m : Manager) (h : DepClosed m.tasks)
    (title : String) : (get_pending_dependencies m title).isSome = true := by
  cases hf : m.tasks.find? title with
  | none => simp [get_pending_dependencies, hf]
  | some task =>
    simp [get_pending_dependencies, hf,
      pendingOf_eq m.tasks task.dependencies (h title task hf)]

/-! ## Lemmas about serialization -/

theorem Priority.ofString?_toString (p : Priority) :
    Priority.ofString? p.toString = some p := by
  cases p <;> rfl

theorem decodeTask_encodeTask (now : Nat) (t : TaskModel)
    (h : TaskModel.valid now t = true) :
    decodeTask now (encodeTask t) = .ok t := by
  simp only [TaskModel.valid, Bool.and_eq_true, decide_eq_true_eq] at h
  obtain ⟨⟨⟨⟨h1, h2⟩, h3⟩, h4⟩, h5⟩ := h
  have c1 : ¬ t.title.length < 1 := by omega
  have c2 : ¬ 100 < t.title.length := by omega
  have c3 : t.deadline.any (fun d => decide (d < now)) = false := by
    cases hd : t.deadline with
    | none => rfl
    | some d =>
      rw [hd] at h3
      simp only [Option.any_some, decide_eq_false_iff_not]
      simp at h3
      omega
  have c4 : t.recurrence_interval.any (fun i => decide (i < 1 ∨ 365 < i)) = false := by
    cases hi : t.recurrence_interval with
    | none => rfl
    | some i =>
      rw [hi] at h4
      simp only [Option.any_some, decide_eq_false_iff_not]
      simp at h4
      omega
  have c5 : ¬ (t.recurring = true ∧ t.recurrence_interval = none) := by
    rintro ⟨hr, hn⟩
    rw [hr] at h5
    simp at h5
    rw [hn] at h5
    simp at h5
  have c6 : ¬ (¬ t.recurring = true ∧ ¬ t.recurrence_interval = none) := by
    rintro ⟨hr, hn⟩
    have hr2 : t.recurring = false := by cases hrb : t.recurring <;> simp_all
    rw [hr2] at h5
    simp at h5
    exact hn h5
  simp only [decodeTask, encodeTask, Priority.ofString?_toString]
  rw [if_neg c1, if_neg c2, if_neg (by rw [c3]; decide),
      if_neg (by rw [c4]; decide), if_neg c5, if_neg c6]

theorem decodeStore_encodeStore (now : Nat) (s : Store)
    (h : ∀ p ∈ s, TaskModel.valid now p.2 = true) :
    decodeStore now (encodeStore s) = .ok s := by
  induction s with
  | nil => rfl
  | cons p rest ih =>
    obtain ⟨k, t⟩ := p
    have ht : TaskModel.valid now t = true := h (k, t) (List.mem_cons_self _ _)
    have hrest := ih (fun q hq => h q (List.mem_cons_of_mem _ hq))
    have hdt := decodeTask_encodeTask now t ht
    have he : encodeStore ((k, t) :: rest) = (k, encodeTask t) :: encodeStore rest := rfl
    rw [he, decodeStore, hdt, hrest]

/-! ## Completed-flag monotonicity -/

theorem applyOp_completed_mono (m : Manager) (op : Op) (title : String)
    (task : TaskModel) (hf : m.tasks.find? title = some task)
    (hc : task.completed = true) :
    ∃ task2, (applyOp m op).tasks.find? title = some task2 ∧
      task2.completed = true := by
  cases op with
  | add t =>
    refine ⟨task, ?_, hc⟩
    show (add_task m t).2.tasks.find? title = some task
    rw [add_task_find?_present m t title (by rw [hf]; rfl)]
    exact hf
  | complete now2 ctitle =>
    by_cases he : ctitle = title
    · subst he
      obtain ⟨m2, heq, hself, _, _⟩ := complete_task_found now2 m ctitle task hf
      refine ⟨{task with completed := true}, ?_, rfl⟩
      show (complete_task now2 m ctitle).2.tasks.find? ctitle = _
      rw [heq]
      exact hself
    · cases hfc : m.tasks.find? ctitle with
      | none =>
        refine ⟨task, ?_, hc⟩
        show (complete_task now2 m ctitle).2.tasks.find? title = some task
        rw [complete_task_absent now2 m ctitle hfc]
        exact hf
      | some ctask =>
        obtain ⟨m2, heq, _, hother, _⟩ := complete_task_found now2 m ctitle ctask hfc
        refine ⟨task, ?_, hc⟩
        show (complete_task now2 m ctitle).2.tasks.find? title = some task
        rw [heq, save_tasks_tasks]
        rw [hother title (by rw [hf]; rfl) (fun hcon => he hcon.symm)]
        exact hf
  | pending t => exact ⟨task, hf, hc⟩

theorem run_completed_mono (m : Manager) (ops : List Op) (title : String)
    (task : TaskModel) (hf : m.tasks.find? title = some task)
    (hc : task.completed = true) :
    ∃ task2, (run m ops).tasks.find? title = some task2 ∧
      task2.completed = true := by
  induction ops generalizing m task with
  | nil => exact ⟨task, hf, hc⟩
  | cons op ops ih =>
    obtain ⟨t2, hf2, hc2⟩ := applyOp_completed_mono m op title task hf hc
    exact ih (applyOp m op) t2 hf2 hc2

/-! ## Claim C1 -/

/-- C1 counterexample: the claim says construction must fail whenever
`deadline ≤ now`, in particular at `deadline = now`; but the validator
uses a strict `v < datetime.now()` comparison, so at `now = 10` a task
with deadline exactly `10` is accepted. -/
theorem C1_counterexample :
    (10 : Nat) ≤ 10 ∧
    excOk (TaskModel.mk? 10 "a" Priority.medium (some 10) [] false none) = true := by
  decide

/-- C1 (amended): with all other fields valid, task construction fails
iff a deadline is present and strictly earlier than `now`; a deadline
exactly equal to `now` is accepted (the validator rejects only
`v < datetime.now()`). -/
theorem C1_deadline_validation (now : Nat) (title : String) (p : Priority)
    (deadline : Option Nat)
    (h1 : 1 ≤ title.length) (h2 : title.length ≤ 100) :
    excOk (TaskModel.mk? now title p deadline [] false none) = false ↔
      ∃ d, deadline = some d ∧ d < now := by
  constructor
  · intro hfail
    cases hd : deadline with
    | none =>
      rw [hd] at hfail
      rw [TaskModel.mk?_success now title p none [] false none h1 h2
        (by simp) (by simp) (by simp) (by simp)] at hfail
      simp [excOk] at hfail
    | some d =>
      by_cases hlt : d < now
      · exact ⟨d, rfl, hlt⟩
      · exfalso
        rw [hd] at hfail
        rw [TaskModel.mk?_success now title p (some d) [] false none h1 h2
          (by rintro d2 hd2; injection hd2 with he; omega)
          (by simp) (by simp) (by simp)] at hfail
        simp [excOk] at hfail
  · rintro ⟨d, hd, hlt⟩
    subst hd
    unfold TaskModel.mk?
    rw [if_neg (by omega), if_neg (by omega), if_pos (by simp [hlt])]
    rfl

/-- C1 witness: the hypotheses of `C1_deadline_validation` hold at a
concrete input where the construction indeed fails. -/
theorem C1_witness :
    1 ≤ ("a" : String).length ∧ ("a" : String).length ≤ 100 ∧
    (excOk (TaskModel.mk? 5 "a" Priority.low (some 3) [] false none) = false ↔
      ∃ d, (some 3 : Option Nat) = some d ∧ d < 5) :=
  ⟨by decide, by decide,
    C1_deadline_validation 5 "a" Priority.low (some 3) (by decide) (by decide)⟩

/-! ## Claim C10 -/

/-- C10: with all other fields valid and any present interval in
`[1,365]`, task construction fails iff exactly one of `recurring = true`
and interval-present holds: recurring without interval is invalid,
interval without recurring is invalid, both or neither is valid. -/
theorem C10_recurrence_covariance (now : Nat) (title : String) (p : Priority)
    (recurring : Bool) (ri : Option Nat)
    (h1 : 1 ≤ title.length) (h2 : title.length ≤ 100)
    (h3 : ∀ i, ri = some i → 1 ≤ i ∧ i ≤ 365) :
    excOk (TaskModel.mk? now title p none [] recurring ri) = false ↔
      ((recurring = true ∧ ri = none) ∨ (recurring = false ∧ ri ≠ none)) := by
  constructor
  · intro hfail
    cases hr : recurring with
    | false =>
      cases hi : ri with
      | none =>
        exfalso
        rw [hr, hi] at hfail
        rw [TaskModel.mk?_success now title p none [] false none h1 h2
          (by simp) (by simp) (by simp) (by simp)] at hfail
        simp [excOk] at hfail
      | some i => exact Or.inr ⟨rfl, by simp⟩
    | true =>
      cases hi : ri with
      | none => exact Or.inl ⟨rfl, rfl⟩
      | some i =>
        exfalso
        rw [hr, hi] at hfail
        rw [TaskModel.mk?_success now title p none [] true (some i) h1 h2
          (by simp) (fun j hj => by injection hj with he; subst he; exact h3 i hi)
          (by simp) (by simp)] at hfail
        simp [excOk] at hfail
  · rintro (⟨hr, hi⟩ | ⟨hr, hi⟩)
    · subst hr
      subst hi
      unfold TaskModel.mk?
      rw [if_neg (by omega), if_neg (by omega), if_neg (by simp),
          if_neg (by simp), if_pos ⟨rfl, rfl⟩]
      rfl
    · obtain ⟨i, hi2⟩ := Option.ne_none_iff_exists'.mp hi
      subst hr
      subst hi2
      have hrange := h3 i rfl
      have c4 : Option.any (fun j => decide (j < 1 ∨ 365 < j)) (some i) = false := by
        simp only [Option.any_some, decide_eq_false_iff_not]
        omega
      unfold TaskModel.mk?
      rw [if_neg (by omega), if_neg (by omega), if_neg (by simp),
          if_neg (by rw [c4]; decide), if_neg (by simp), if_pos (by simp)]
      rfl

/-- C10 witness: the hypotheses of `C10_recurrence_covariance` hold at a
concrete input (recurring without an interval), where construction
indeed fails. -/
theorem C10_witness :
    1 ≤ ("a" : String).length ∧ ("a" : String).length ≤ 100 ∧
    (excOk (TaskModel.mk? 0 "a" Priority.low none [] true none) = false ↔
      ((true = true ∧ (none : Option Nat) = none) ∨
       (true = false ∧ (none : Option Nat) ≠ none))) :=
  ⟨by decide, by decide,
    C10_recurrence_covariance 0 "a" Priority.low true none (by decide) (by decide)
      (by simp)⟩

/-! ## Claim C2 -/

/-- C2: `add_task` returns `False` with the manager unchanged (no
mutation, no save) when the title is already present or some listed
dependency is absent; otherwise it inserts the task under its title,
persists the serialized store, and returns `True`.  Consequently, for a
task with no dependencies whose title is absent, the first add succeeds
and a second add of any task with the same title fails. -/
theorem C2_add_task (m : Manager) (task : TaskModel) :
    (((m.tasks.find? task.title).isSome = true ∨
        ∃ dep ∈ task.dependencies, m.tasks.find? dep = none) →
      add_task m task = (false, m)) ∧
    ((m.tasks.find? task.title = none ∧
        ∀ dep ∈ task.dependencies, (m.tasks.find? dep).isSome = true) →
      add_task m task =
        (true, { tasks := m.tasks.set task.title task,
                 file := encodeStore (m.tasks.set task.title task) })) ∧
    (task.dependencies = [] → m.tasks.find? task.title = none →
      ((add_task m task).1 = true ∧
       ∀ task2 : TaskModel, task2.title = task.title →
         (add_task (add_task m task).2 task2).1 = false)) := by
  refine ⟨?_, ?_, ?_⟩
  · rintro (h | ⟨dep, hdep, hnone⟩)
    · exact add_task_dup m task h
    · rcases add_task_eq m task with he | ⟨_, hdeps, _⟩
      · exact he
      · exfalso
        have hsome := hdeps dep hdep
        rw [hnone] at hsome
        simp at hsome
  · rintro ⟨h1, h2⟩
    exact add_task_success m task h1 h2
  · intro hdeps h1
    have hsucc := add_task_success m task h1 (by rw [hdeps]; simp)
    constructor
    · rw [hsucc]
    · intro task2 ht2
      rw [add_task_dup (add_task m task).2 task2
        (by rw [ht2, hsucc]; simp [Store.find?_set])]

/-- C2 witness: adding the sample task to the empty store succeeds, and
adding it again fails. -/
theorem C2_witness :
    taskA.dependencies = [] ∧ emptyManager.tasks.find? taskA.title = none ∧
    (add_task emptyManager taskA).1 = true ∧
    (add_task (add_task emptyManager taskA).2 taskA).1 = false := by
  have h := (C2_add_task emptyManager taskA).2.2 (by decide) (by decide)
  exact ⟨by decide, by decide, h.1, h.2 taskA rfl⟩

/-! ## Claim C3 -/

/-- C3: `complete_task` on an absent title returns `False` and leaves
the manager (store and file) unmodified; on a present title it returns
`True`, sets `completed = true` on the stored task, and persists the
serialized store — with no hypothesis whatsoever on the completion
status of the dependencies of the task (no dependency re-check). -/
theorem C3_complete_task (now : Nat) (m : Manager) (title : String) :
    (m.tasks.find? title = none → complete_task now m title = (false, m)) ∧
    (∀ task, m.tasks.find? title = some task →
      (complete_task now m title).1 = true ∧
      (complete_task now m title).2.tasks.find? title =
        some { task with completed := true } ∧
      (complete_task now m title).2.file =
        encodeStore (complete_task now m title).2.tasks) := by
  refine ⟨fun h => complete_task_absent now m title h, ?_⟩
  intro task htask
  obtain ⟨m2, heq, hself, _, _⟩ := complete_task_found now m title task htask
  refine ⟨by rw [heq], ?_, ?_⟩
  · rw [heq]
    show m2.tasks.find? title = some { task with completed := true }
    exact hself
  · rw [heq]
    show (save_tasks m2).file = encodeStore (save_tasks m2).tasks
    rfl

/-- C3 witness: completing the stored sample task with an incomplete
dependency state succeeds (the sample store has task `b` whose
dependency `a` is incomplete, and completing `b` still succeeds). -/
theorem C3_witness :
    managerB.tasks.find? "b" = some taskB ∧
    get_pending_dependencies managerB "b" = some ["a"] ∧
    (complete_task 1 managerB "b").1 = true ∧
    (complete_task 1 managerB "b").2.tasks.find? "b" =
      some { taskB with completed := true } ∧
    (complete_task 1 managerB "b").2.file =
      encodeStore (complete_task 1 managerB "b").2.tasks := by
  have h := (C3_complete_task 1 managerB "b").2 taskB (by decide)
  exact ⟨by decide, by decide, h.1, h.2.1, h.2.2⟩

/-! ## Recurrence synthesis characterization -/

theorem complete_task_recur_ok (now : Nat) (m : Manager) (task : TaskModel)
    (i : Nat) (nt : TaskModel)
    (htask : m.tasks.find? task.title = some task)
    (hrec : task.recurring = true)
    (hint : task.recurrence_interval = some i) (hi : ¬ i = 0)
    (hmk : TaskModel.mk? now (task.title ++ " (Recurring)") task.priority
      (task.deadline.map (fun d => d + i * 86400)) task.dependencies true
      (some i) = .ok nt) :
    complete_task now m task.title =
      (true, save_tasks
        (add_task { m with
          tasks := m.tasks.set task.title { task with completed := true } }
          nt).2) := by
  simp only [complete_task, htask, hint, hrec, hi, hmk, ne_eq,
    not_false_eq_true, and_self, if_true]

theorem complete_task_recur_error (now : Nat) (m : Manager) (task : TaskModel)
    (i : Nat) (e : String)
    (htask : m.tasks.find? task.title = some task)
    (hrec : task.recurring = true)
    (hint : task.recurrence_interval = some i) (hi : ¬ i = 0)
    (hmk : TaskModel.mk? now (task.title ++ " (Recurring)") task.priority
      (task.deadline.map (fun d => d + i * 86400)) task.dependencies true
      (some i) = .error e) :
    complete_task now m task.title =
      (true, save_tasks { m with
        tasks := m.tasks.set task.title { task with completed := true } }) := by
  simp only [complete_task, htask, hint, hrec, hi, hmk, ne_eq,
    not_false_eq_true, and_self, if_true]

/-! ## Claim C4 -/

/-- C4 counterexample: the claim quantifies over every stored recurring
task whose derived title is fresh and whose derived deadline is in the
future, and asserts a successor is added; but for a stored task whose
89-character title makes the derived title exceed the 100-character
limit, the synthesized construction fails validation, the failure is
swallowed, and no successor appears — while all the conditions of the
claim hold. -/
theorem C4_counterexample :
    managerL.tasks.find? longTitle = some taskL ∧
    taskL.recurring = true ∧
    taskL.recurrence_interval = some 7 ∧
    taskL.deadline = some 100 ∧
    managerL.tasks.find? (longTitle ++ " (Recurring)") = none ∧
    (50 : Nat) < 100 + 7 * 86400 ∧
    (complete_task 50 managerL longTitle).1 = true ∧
    (complete_task 50 managerL longTitle).2.tasks.find?
      (longTitle ++ " (Recurring)") = none := by
  decide

/-- C4 (amended): for a stored recurring task with interval
`i ∈ [1,365]` whose dependencies are all present, whose derived title is
fresh and fits the 100-character bound, and whose shifted deadline is
strictly in the future (or absent), `complete_task` marks the original
completed, inserts the §4.3 successor under the derived title, and
persists the serialized store. -/
theorem C4_recurrence_synthesis (now : Nat) (m : Manager) (task : TaskModel)
    (i : Nat)
    (htask : m.tasks.find? task.title = some task)
    (hrec : task.recurring = true)
    (hint : task.recurrence_interval = some i)
    (hge : 1 ≤ i) (hle : i ≤ 365)
    (hlen : (task.title ++ " (Recurring)").length ≤ 100)
    (hfresh : m.tasks.find? (task.title ++ " (Recurring)") = none)
    (hdl : ∀ d, task.deadline = some d → now < d + i * 86400)
    (hdeps : ∀ dep ∈ task.dependencies, (m.tasks.find? dep).isSome = true) :
    (complete_task now m task.title).1 = true ∧
    (complete_task now m task.title).2.tasks.find?
      (task.title ++ " (Recurring)") = some (derivedTask now task i) ∧
    (complete_task now m task.title).2.tasks.find? task.title =
      some { task with completed := true } ∧
    (complete_task now m task.title).2.file =
      encodeStore (complete_task now m task.title).2.tasks := by
  have hlen1 : 1 ≤ (task.title ++ " (Recurring)").length := by
    rw [String.length_append]
    have h12 : (" (Recurring)" : String).length = 12 := rfl
    omega
  have hdl2 : ∀ d, task.deadline.map (fun d => d + i * 86400) = some d →
      ¬ d < now := by
    intro d hd
    cases hdo : task.deadline with
    | none => rw [hdo] at hd; simp at hd
    | some d0 =>
      rw [hdo] at hd
      simp at hd
      have := hdl d0 hdo
      omega
  have hmk : TaskModel.mk? now (task.title ++ " (Recurring)") task.priority
      (task.deadline.map (fun d => d + i * 86400)) task.dependencies true
      (some i) = .ok (derivedTask now task i) := by
    rw [TaskModel.mk?_success now (task.title ++ " (Recurring)") task.priority
      (task.deadline.map (fun d => d + i * 86400)) task.dependencies true
      (some i) hlen1 hlen hdl2
      (fun j hj => by injection hj with he; subst he; exact ⟨hge, hle⟩)
      (fun _ => by simp) (by simp)]
    rfl
  have hcomp := complete_task_recur_ok now m task i (derivedTask now task i)
    htask hrec hint (by omega) hmk
  have hne : ¬ task.title = task.title ++ " (Recurring)" :=
    fun h => title_append_suffix_ne task.title h.symm
  have hm1fresh :
      (m.tasks.set task.title { task with completed := true }).find?
        (task.title ++ " (Recurring)") = none := by
    rw [Store.find?_set, if_neg hne]
    exact hfresh
  have hm1deps : ∀ dep ∈ (derivedTask now task i).dependencies,
      (((m.tasks.set task.title { task with completed := true })).find? dep).isSome
        = true := by
    intro dep hdep
    exact Store.find?_set_isSome _ _ _ _ (hdeps dep hdep)
  have haddeq := add_task_success
    { m with tasks := m.tasks.set task.title { task with completed := true } }
    (derivedTask now task i) hm1fresh hm1deps
  refine ⟨by rw [hcomp], ?_, ?_, ?_⟩
  · rw [hcomp]
    show (add_task { m with
        tasks := m.tasks.set task.title { task with completed := true } }
        (derivedTask now task i)).2.tasks.find? (task.title ++ " (Recurring)") =
      some (derivedTask now task i)
    rw [haddeq]
    show ((m.tasks.set task.title { task with completed := true }).set
        (task.title ++ " (Recurring)") (derivedTask now task i)).find?
        (task.title ++ " (Recurring)") = some (derivedTask now task i)
    rw [Store.find?_set, if_pos rfl]
  · rw [hcomp]
    show (add_task { m with
        tasks := m.tasks.set task.title { task with completed := true } }
        (derivedTask now task i)).2.tasks.find? task.title =
      some { task with completed := true }
    rw [haddeq]
    show ((m.tasks.set task.title { task with completed := true }).set
        (task.title ++ " (Recurring)") (derivedTask now task i)).find?
        task.title = some { task with completed := true }
    rw [Store.find?_set, if_neg (title_append_suffix_ne task.title),
        Store.find?_set, if_pos rfl]
  · rw [hcomp]
    show (save_tasks (add_task { m with
        tasks := m.tasks.set task.title { task with completed := true } }
        (derivedTask now task i)).2).file =
      encodeStore (save_tasks (add_task { m with
        tasks := m.tasks.set task.title { task with completed := true } }
        (derivedTask now task i)).2).tasks
    rfl

/-- C4 witness: completing the sample recurring task at time 50 adds
the derived successor and completes the original. -/
theorem C4_witness :
    (complete_task 50 managerR taskR.title).1 = true ∧
    (complete_task 50 managerR taskR.title).2.tasks.find?
      (taskR.title ++ " (Recurring)") = some (derivedTask 50 taskR 7) ∧
    (complete_task 50 managerR taskR.title).2.tasks.find? taskR.title =
      some { taskR with completed := true } ∧
    (complete_task 50 managerR taskR.title).2.file =
      encodeStore (complete_task 50 managerR taskR.title).2.tasks :=
  C4_recurrence_synthesis 50 managerR taskR 7 (by decide) (by decide)
    (by decide) (by decide) (by decide) (by decide) (by decide)
    (by intro d hd; simp [taskR] at hd; omega)
    (by intro dep hdep; simp [taskR] at hdep)

/-! ## Claim C5 -/

/-- C5: when recurrence synthesis fails during completion — the derived
construction raises a validation error, or the inner add is refused
because the derived title is already present or a copied dependency is
absent — the failure is swallowed: `complete_task` still returns `True`,
the store holds the original task with `completed = true` and no other
change, and that state is persisted. -/
theorem C5_swallowed_failure (now : Nat) (m : Manager) (task : TaskModel)
    (i : Nat)
    (htask : m.tasks.find? task.title = some task)
    (hrec : task.recurring = true)
    (hint : task.recurrence_interval = some i) (hi : ¬ i = 0)
    (hfail :
      excOk (TaskModel.mk? now (task.title ++ " (Recurring)") task.priority
        (task.deadline.map (fun d => d + i * 86400)) task.dependencies true
        (some i)) = false ∨
      ((m.tasks.set task.title { task with completed := true }).find?
        (task.title ++ " (Recurring)")).isSome = true ∨
      (∃ dep ∈ task.dependencies,
        (m.tasks.set task.title { task with completed := true }).find? dep
          = none)) :
    complete_task now m task.title =
      (true, save_tasks { m with
        tasks := m.tasks.set task.title { task with completed := true } }) := by
  cases hmk : TaskModel.mk? now (task.title ++ " (Recurring)") task.priority
      (task.deadline.map (fun d => d + i * 86400)) task.dependencies true
      (some i) with
  | error e =>
    exact complete_task_recur_error now m task i e htask hrec hint hi hmk
  | ok nt =>
    have hnt := TaskModel.mk?_ok_shape now (task.title ++ " (Recurring)")
      task.priority (task.deadline.map (fun d => d + i * 86400))
      task.dependencies true (some i) nt hmk
    have hcomp := complete_task_recur_ok now m task i nt htask hrec hint hi hmk
    rw [hcomp]
    rcases hfail with hf | hf | ⟨dep, hdep, hf⟩
    · rw [hmk] at hf
      simp [excOk] at hf
    · have hdup := add_task_dup
        { m with tasks := m.tasks.set task.title { task with completed := true } }
        nt (by rw [hnt]; exact hf)
      rw [hdup]
    · rcases add_task_eq
        { m with tasks := m.tasks.set task.title { task with completed := true } }
        nt with he | ⟨_, hdeps, _⟩
      · rw [he]
      · exfalso
        have hsome := hdeps dep (by rw [hnt]; exact hdep)
        rw [hf] at hsome
        simp at hsome

/-- C5 witness: completing the sample recurring task at a time far past
the shifted deadline swallows the synthesis failure — completion still
succeeds and persists only the completed original. -/
theorem C5_witness :
    managerR.tasks.find? taskR.title = some taskR ∧
    complete_task 1000000000 managerR taskR.title =
      (true, save_tasks { managerR with
        tasks := managerR.tasks.set taskR.title
          { taskR with completed := true } }) :=
  ⟨by decide,
    C5_swallowed_failure 1000000000 managerR taskR 7 (by decide) (by decide)
      (by decide) (by decide) (Or.inl (by decide))⟩

/-! ## Claim C6 -/

/-- C6: round-trip persistence — serializing any store whose tasks all
satisfy the §4.1 validity rules at load time, then parsing the result,
reproduces the identical title-to-task mapping, field for field. -/
theorem C6_round_trip (now : Nat) (s : Store)
    (h : ∀ p ∈ s, TaskModel.valid now p.2 = true) :
    decodeStore now (encodeStore s) = .ok s :=
  decodeStore_encodeStore now s h

/-- C6 witness: the sample store round-trips at load time 50. -/
theorem C6_witness :
    (∀ p ∈ managerR.tasks, TaskModel.valid 50 p.2 = true) ∧
    decodeStore 50 (encodeStore managerR.tasks) = .ok managerR.tasks :=
  ⟨by decide, C6_round_trip 50 managerR.tasks (by decide)⟩

/-! ## Claim C7 -/

/-- C7: `get_pending_dependencies` on an absent title returns the empty
sequence (not an error); on a present title whose listed dependencies
all exist, it returns exactly the subsequence of the dependencies of
the task whose referenced task is not completed, in order. -/
theorem C7_pending_dependencies (m : Manager) (title : String) :
    (m.tasks.find? title = none →
      get_pending_dependencies m title = some []) ∧
    (∀ task, m.tasks.find? title = some task →
      (∀ dep ∈ task.dependencies, (m.tasks.find? dep).isSome = true) →
      get_pending_dependencies m title =
        some (task.dependencies.filter (fun dep =>
          match m.tasks.find? dep with
          | some t => !t.completed
          | none => false))) := by
  constructor
  · intro h
    simp [get_pending_dependencies, h]
  · intro task htask hdeps
    simp [get_pending_dependencies, htask,
      pendingOf_eq m.tasks task.dependencies hdeps]

/-- C7 witness: in the sample store, the pending dependencies of `b`
are exactly `["a"]` (`a` incomplete, `c` completed), and an absent
title yields the empty sequence. -/
theorem C7_witness :
    managerB.tasks.find? "b" = some taskB ∧
    get_pending_dependencies managerB "b" =
      some (taskB.dependencies.filter (fun dep =>
        match managerB.tasks.find? dep with
        | some t => !t.completed
        | none => false)) ∧
    managerB.tasks.find? "zzz" = none ∧
    get_pending_dependencies managerB "zzz" = some [] := by
  have h1 := (C7_pending_dependencies managerB "b").2 taskB (by decide) (by decide)
  have h2 := (C7_pending_dependencies managerB "zzz").1 (by decide)
  exact ⟨by decide, h1, by decide, h2⟩

/-! ## Claim C8 -/

/-- C8: the dependency-closure invariant — every listed dependency of
every stored task is present in the store — holds of the empty store
and is preserved by every sequence of store operations from any state
satisfying it; under it, the unchecked dependency lookup inside
`get_pending_dependencies` always finds a task (no `KeyError`). -/
theorem C8_dependency_invariant (m : Manager) (ops : List Op)
    (h : DepClosed m.tasks) :
    DepClosed ([] : Store) ∧
    DepClosed (run m ops).tasks ∧
    ∀ title, (get_pending_dependencies (run m ops) title).isSome = true := by
  refine ⟨?_, run_depClosed m ops h, ?_⟩
  · intro k t ht
    simp [Store.find?] at ht
  · intro title
    exact get_pending_dependencies_isSome (run m ops)
      (run_depClosed m ops h) title

/-- C8 witness: running a concrete operation sequence from the empty
store preserves the invariant, and the pending query never fails. -/
theorem C8_witness :
    DepClosed ([] : Store) ∧
    DepClosed (run emptyManager
      [Op.add taskA, Op.complete 1 "a", Op.pending "a"]).tasks ∧
    (get_pending_dependencies (run emptyManager
      [Op.add taskA, Op.complete 1 "a", Op.pending "a"]) "a").isSome = true := by
  have h := C8_dependency_invariant emptyManager
    [Op.add taskA, Op.complete 1 "a", Op.pending "a"]
    (by intro k t ht; simp [emptyManager, Store.find?] at ht)
  exact ⟨h.1, h.2.1, h.2.2 "a"⟩

/-! ## Claim C9 -/

/-- C9: the completed flag of a stored task never transitions from true
back to false under any sequence of store operations; `add_task` never
changes an existing entry at all, and `complete_task` changes only the
entry of the given title, setting its completed flag to true. -/
theorem C9_completed_monotone (m : Manager) (ops : List Op) (title : String)
    (task : TaskModel) (hfind : m.tasks.find? title = some task) :
    (task.completed = true →
      ∃ task2, (run m ops).tasks.find? title = some task2 ∧
        task2.completed = true) ∧
    (∀ t, (add_task m t).2.tasks.find? title = some task) ∧
    (∀ now ctitle, ¬ ctitle = title →
      (complete_task now m ctitle).2.tasks.find? title = some task) ∧
    (∀ now, (complete_task now m title).2.tasks.find? title =
      some { task with completed := true }) := by
  refine ⟨fun hc => run_completed_mono m ops title task hfind hc, ?_, ?_, ?_⟩
  · intro t
    rw [add_task_find?_present m t title (by rw [hfind]; rfl)]
    exact hfind
  · intro now ctitle hne
    cases hfc : m.tasks.find? ctitle with
    | none =>
      rw [complete_task_absent now m ctitle hfc]
      exact hfind
    | some ctask =>
      obtain ⟨m2, heq, _, hother, _⟩ := complete_task_found now m ctitle ctask hfc
      rw [heq]
      show m2.tasks.find? title = some task
      rw [hother title (by rw [hfind]; rfl) (fun hcon => hne hcon.symm)]
      exact hfind
  · intro now
    obtain ⟨m2, heq, hself, _, _⟩ := complete_task_found now m title task hfind
    rw [heq]
    show m2.tasks.find? title = some { task with completed := true }
    exact hself

/-- C9 witness: the completed sample task `c` stays completed across a
concrete operation sequence; adds and completions of other titles leave
it untouched, and completing it sets (keeps) the flag true. -/
theorem C9_witness :
    managerB.tasks.find? "c" = some taskC ∧
    (∃ task2, (run managerB [Op.complete 1 "b", Op.add taskR]).tasks.find? "c"
      = some task2 ∧ task2.completed = true) ∧
    (add_task managerB taskR).2.tasks.find? "c" = some taskC ∧
    (complete_task 1 managerB "b").2.tasks.find? "c" = some taskC ∧
    (complete_task 1 managerB "c").2.tasks.find? "c" =
      some { taskC with completed := true } := by
  have h := C9_completed_monotone managerB [Op.complete 1 "b", Op.add taskR]
    "c" taskC (by decide)
  exact ⟨by decide, h.1 (by decide), h.2.1 taskR, h.2.2.1 1 "b" (by decide),
    h.2.2.2 1⟩
